import Mathlib

/-!
Shallow embedding of `src/rpi_xc112/source/acc_service_data_logger.c`
(an Acconeer radar data-logger CLI) and proofs about its acquisition
loop, lifecycle handling, option parsing and output format.

External collaborators (`acc_service_create`, `acc_service_activate`,
`acc_service_*_get_next`, `acc_service_deactivate`, `acc_service_destroy`,
the HAL and RSS layers, `fopen`) live in an opaque SDK and are modelled
as boolean/functional oracles supplied through `PBProvider` /
`EnvProvider` / `IQProvider` / `Sys` / `World` records; the control flow
around them is transcribed line by line from the source file.
-/

namespace DataLogger

/-- `service_type_t` (acc_service_data_logger.c:41-47). -/
inductive ServiceType
  | invalid
  | power_bin
  | envelope
  | iq
deriving DecidableEq, Repr

/-- `acc_log_level_t` restricted to the two values the program uses
(`ACC_LOG_LEVEL_ERROR` default, `ACC_LOG_LEVEL_VERBOSE` via `-v`). -/
inductive LogLevel
  | error
  | verbose
deriving DecidableEq, Repr

/-- `input_t` (acc_service_data_logger.c:49-64).  C floats are embedded
as `Rat` (the program only stores and range-checks them); `update_count`
is a C `uint16_t`, embedded as a `Nat` kept below `2^16` by the parser's
conversion; `service_profile` is a `uint32_t`. -/
structure Input where
  service_type : ServiceType
  update_count : Nat
  wait_for_interrupt : Bool
  start_m : Rat
  end_m : Rat
  frequency : Rat
  n_bins : Int
  gain : Rat
  service_profile : Nat
  running_avg : Rat
  sensor : Int
  log_level : LogLevel
  file_path : Option String
deriving DecidableEq, Repr

/-- `initialize_input` and the `DEFAULT_*` macros
(acc_service_data_logger.c:26-36,67-82). -/
def default_input : Input :=
  { service_type := ServiceType.invalid
    update_count := 0
    wait_for_interrupt := true
    start_m := 7/100
    end_m := 1/2
    frequency := 10
    n_bins := 10
    gain := -1
    service_profile := 0
    running_avg := -1
    sensor := 1
    log_level := LogLevel.error
    file_path := none }

/-- One parsed command-line option, carrying the numeric value `atoi` /
`strtof` produced from its argument (acc_service_data_logger.c:285-303).
Constructor names are the short option letters. -/
inductive Opt
  | t (v : Int)
  | c (v : Int)
  | b (v : Rat)
  | e (v : Rat)
  | f (v : Rat)
  | g (v : Rat)
  | n (v : Int)
  | y (v : Int)
  | o (path : String)
  | r (v : Rat)
  | s (v : Int)
  | v
  | h
deriving DecidableEq, Repr

/-- Outcome of `parse_options`: `ok` models `return true`, `failUsage`
models `return false` (usage printed, caller exits with failure), and
`fatalExit` models the direct `exit(EXIT_FAILURE)` calls inside the
range checks. -/
inductive ParseResult
  | ok (i : Input)
  | failUsage
  | fatalExit
deriving DecidableEq, Repr

/-- One iteration of the `getopt_long` switch
(acc_service_data_logger.c:310-463).  The `uint16_t` assignment in the
`'c'` case truncates the `int` from `atoi` modulo `2^16`
(acc_service_data_logger.c:339-344); likewise the `uint32_t`
`service_profile` in the `'y'` case. -/
def parse_one (st : Input) : Opt → ParseResult
  | Opt.t v =>
    if v = 0 then ParseResult.ok { st with service_type := ServiceType.power_bin }
    else if v = 1 then ParseResult.ok { st with service_type := ServiceType.envelope }
    else if v = 2 then ParseResult.ok { st with service_type := ServiceType.iq }
    else ParseResult.failUsage
  | Opt.c v =>
    ParseResult.ok { st with update_count := (v % 65536).toNat, wait_for_interrupt := false }
  | Opt.b v => ParseResult.ok { st with start_m := v }
  | Opt.e v => ParseResult.ok { st with end_m := v }
  | Opt.f v =>
    if 0 < v ∧ v < 100000 then ParseResult.ok { st with frequency := v }
    else ParseResult.fatalExit
  | Opt.g v =>
    if 0 ≤ v ∧ v ≤ 1 then ParseResult.ok { st with gain := v }
    else ParseResult.fatalExit
  | Opt.n v =>
    if 0 < v ∧ v ≤ 32 then ParseResult.ok { st with n_bins := v }
    else ParseResult.fatalExit
  | Opt.y v => ParseResult.ok { st with service_profile := (v % 4294967296).toNat }
  | Opt.o p => ParseResult.ok { st with file_path := some p }
  | Opt.r v =>
    if 0 ≤ v ∧ v ≤ 1 then ParseResult.ok { st with running_avg := v }
    else ParseResult.fatalExit
  | Opt.s v =>
    if 0 < v ∧ v ≤ 4 then ParseResult.ok { st with sensor := v }
    else ParseResult.fatalExit
  | Opt.v => ParseResult.ok { st with log_level := LogLevel.verbose }
  | Opt.h => ParseResult.failUsage

/-- The `getopt_long` loop folded over the option list; a `false` return
or an `exit` stops parsing immediately.  The final guard is the
missing-service-type check (acc_service_data_logger.c:466-471). -/
def parse_go : Input → List Opt → ParseResult
  | st, [] =>
    if st.service_type = ServiceType.invalid then ParseResult.failUsage else ParseResult.ok st
  | st, op :: rest =>
    match parse_one st op with
    | ParseResult.ok st2 => parse_go st2 rest
    | ParseResult.failUsage => ParseResult.failUsage
    | ParseResult.fatalExit => ParseResult.fatalExit

/-- `parse_options` (acc_service_data_logger.c:285-474), starting from
`initialize_input`'s defaults. -/
def parse_options (opts : List Opt) : ParseResult :=
  parse_go default_input opts

/-- Calls made against the opaque service provider, in program order. -/
inductive Ev
  | create
  | getMetadata
  | activate
  | getNext (k : Nat)
  | deactivate
  | destroy
deriving DecidableEq, Repr

/-- How the `while` loop of an `execute_*` function ended: the loop
condition became false (`normal`), a `get_next` call failed and the
function returned early (`pollFail`), or the supplied fuel ran out
while the loop was still running (`fuelOut`, modelling an execution
that has not terminated yet). -/
inductive LoopExit
  | normal
  | pollFail
  | fuelOut
deriving DecidableEq, Repr

/-- What one run of the `while` loop produced: the text lines written to
the sink, the `get_next` events issued, and how the loop ended. -/
structure LoopOut where
  lines : List String
  events : List Ev
  outcome : LoopExit
deriving DecidableEq, Repr

/-- The text line one loop iteration writes: every field already carries
its trailing tab (the C prints `"%u\t"` per sample), then `fprintf(file,
"\n")` (acc_service_data_logger.c:557-562). -/
def lineOf (f : Nat → List String) (k : Nat) : String :=
  String.join (f k) ++ "\n"

/-- The `while ((wait_for_interrupt && interrupted == 0) || updates <
update_count)` loop shared verbatim by `execute_power_bin`
(acc_service_data_logger.c:549-580), `execute_envelope` (674-705) and
`execute_iq` (794-827), parameterized over the per-poll success oracle
`pok`, the rendered fields `f` of the frame the provider deposits in the
buffer on poll `k`, and the value `intr k` the `volatile` flag
`interrupted` has at the `k`-th evaluation of the loop condition.
`updates` is a `uint16_t`, so its increment wraps modulo `2^16`.
A failed poll returns from the enclosing function at once
(`return false`, line 573), which the `pollFail` outcome records. -/
def pollLoop (pok : Nat → Bool) (f : Nat → List String) (intr : Nat → Bool)
    (wfi : Bool) (uc : Nat) : Nat → Nat → Nat → LoopOut
  | 0, _, _ => ⟨[], [], LoopExit.fuelOut⟩
  | fuel + 1, updates, k =>
    if (wfi && !intr k) || decide (updates < uc) then
      if pok k then
        let rest := pollLoop pok f intr wfi uc fuel
          (if wfi then updates else (updates + 1) % 65536) (k + 1)
        ⟨lineOf f k :: rest.lines, Ev.getNext k :: rest.events, rest.outcome⟩
      else ⟨[], [Ev.getNext k], LoopExit.pollFail⟩
    else ⟨[], [], LoopExit.normal⟩

/-- Oracle for the opaque power-bins service: whether
`acc_service_create` returns a handle, the `bin_count` metadata, whether
`acc_service_activate` succeeds, whether the `k`-th
`acc_service_power_bins_get_next` succeeds, the `uint16_t` contents
`frame k i` it deposits at buffer index `i`, and whether
`acc_service_deactivate` succeeds. -/
structure PBProvider where
  createOk : Bool
  bin_count : Nat
  activateOk : Bool
  pollOk : Nat → Bool
  frame : Nat → Nat → Nat
  deactivateOk : Bool

/-- The fields `execute_power_bin` prints for poll `k`: one `"%u\t"`
token per bin (acc_service_data_logger.c:557-560). -/
def pbFields (P : PBProvider) (k : Nat) : List String :=
  (List.range P.bin_count).map (fun i => toString (P.frame k i) ++ "\t")

/-- Environment outside the provider: whether `fopen(file_path, "w")`
succeeds, and the value of the `volatile sig_atomic_t interrupted` flag
at the `k`-th check of the loop condition. -/
structure Sys where
  fopenOk : Bool
  interruptedAt : Nat → Bool

/-- Result of one `execute_*` call: its boolean return value, the frame
lines written to the sink, and the provider calls made. -/
structure ExecResult where
  ret : Bool
  lines : List String
  events : List Ev
deriving DecidableEq, Repr

/-- `execute_power_bin` (acc_service_data_logger.c:515-597).  Branches,
in source order: null handle from `acc_service_create` returns `false`
(520-524); metadata is read (527); `acc_service_activate` (532); on
success, `fopen` failure returns `false` at once (542-546, note: without
destroying the handle); the poll loop runs (551-580) and a failed poll
returns `false` at once (573, again without deactivate/destroy); on
normal loop exit the file is closed, `acc_service_deactivate`'s result
becomes the return value (587) and the handle is destroyed (594); on
activation failure the handle is still destroyed before returning
`false` (589-596).  `none` means the loop outran the fuel (a run that
has not terminated). -/
def execute_power_bin (P : PBProvider) (S : Sys) (file_path : Option String)
    (wait_for_interrupt : Bool) (update_count : Nat) (fuel : Nat) : Option ExecResult :=
  if P.createOk = false then some ⟨false, [], [Ev.create]⟩
  else if P.activateOk then
    if file_path.isSome && !S.fopenOk then
      some ⟨false, [], [Ev.create, Ev.getMetadata, Ev.activate]⟩
    else
      let r := pollLoop P.pollOk (pbFields P) S.interruptedAt wait_for_interrupt update_count fuel 0 0
      match r.outcome with
      | LoopExit.fuelOut => none
      | LoopExit.pollFail =>
        some ⟨false, r.lines, [Ev.create, Ev.getMetadata, Ev.activate] ++ r.events⟩
      | LoopExit.normal =>
        some ⟨P.deactivateOk, r.lines,
          [Ev.create, Ev.getMetadata, Ev.activate] ++ r.events ++ [Ev.deactivate, Ev.destroy]⟩
  else some ⟨false, [], [Ev.create, Ev.getMetadata, Ev.activate, Ev.destroy]⟩

/-- Oracle for the opaque envelope service (`data_length` metadata,
`uint16_t` samples). -/
structure EnvProvider where
  createOk : Bool
  data_length : Nat
  activateOk : Bool
  pollOk : Nat → Bool
  frame : Nat → Nat → Nat
  deactivateOk : Bool

/-- The fields `execute_envelope` prints for poll `k`
(acc_service_data_logger.c:682-685).  The C renders
`(unsigned int)(envelope_data[index] + 0.5f)`; for a `uint16_t` value
`v` the float sum `v + 0.5f` is exact (18 significand bits suffice) and
truncation recovers `v`, so the printed value is the sample itself. -/
def envFields (P : EnvProvider) (k : Nat) : List String :=
  (List.range P.data_length).map (fun i => toString (P.frame k i) ++ "\t")

/-- `execute_envelope` (acc_service_data_logger.c:640-722); identical
control flow to `execute_power_bin`, including the early returns at
fopen failure (667-671) and poll failure (698) that skip
`acc_service_destroy`. -/
def execute_envelope (P : EnvProvider) (S : Sys) (file_path : Option String)
    (wait_for_interrupt : Bool) (update_count : Nat) (fuel : Nat) : Option ExecResult :=
  if P.createOk = false then some ⟨false, [], [Ev.create]⟩
  else if P.activateOk then
    if file_path.isSome && !S.fopenOk then
      some ⟨false, [], [Ev.create, Ev.getMetadata, Ev.activate]⟩
    else
      let r := pollLoop P.pollOk (envFields P) S.interruptedAt wait_for_interrupt update_count fuel 0 0
      match r.outcome with
      | LoopExit.fuelOut => none
      | LoopExit.pollFail =>
        some ⟨false, r.lines, [Ev.create, Ev.getMetadata, Ev.activate] ++ r.events⟩
      | LoopExit.normal =>
        some ⟨P.deactivateOk, r.lines,
          [Ev.create, Ev.getMetadata, Ev.activate] ++ r.events ++ [Ev.deactivate, Ev.destroy]⟩
  else some ⟨false, [], [Ev.create, Ev.getMetadata, Ev.activate, Ev.destroy]⟩

/-- Oracle for the opaque IQ service.  `frame k i` is the pair of
already-rendered numerals the external `ACC_LOG_FLOAT_TO_INTEGER` /
`PRIfloat` machinery (from the SDK's `acc_log.h`, not part of this
repository) produces for the real and imaginary parts of sample `i` of
poll `k`. -/
structure IQProvider where
  createOk : Bool
  data_length : Nat
  activateOk : Bool
  pollOk : Nat → Bool
  frame : Nat → Nat → String × String
  deactivateOk : Bool

/-- The fields `execute_iq` prints for poll `k`: the format string
`"%" PRIfloat "\t%" PRIfloat "\t"` emits two tab-terminated fields per
complex sample (acc_service_data_logger.c:802-807). -/
def iqFields (P : IQProvider) (k : Nat) : List String :=
  (List.range P.data_length).flatMap
    (fun i => [(P.frame k i).1 ++ "\t", (P.frame k i).2 ++ "\t"])

/-- `execute_iq` (acc_service_data_logger.c:761-844); identical control
flow to `execute_power_bin`. -/
def execute_iq (P : IQProvider) (S : Sys) (file_path : Option String)
    (wait_for_interrupt : Bool) (update_count : Nat) (fuel : Nat) : Option ExecResult :=
  if P.createOk = false then some ⟨false, [], [Ev.create]⟩
  else if P.activateOk then
    if file_path.isSome && !S.fopenOk then
      some ⟨false, [], [Ev.create, Ev.getMetadata, Ev.activate]⟩
    else
      let r := pollLoop P.pollOk (iqFields P) S.interruptedAt wait_for_interrupt update_count fuel 0 0
      match r.outcome with
      | LoopExit.fuelOut => none
      | LoopExit.pollFail =>
        some ⟨false, r.lines, [Ev.create, Ev.getMetadata, Ev.activate] ++ r.events⟩
      | LoopExit.normal =>
        some ⟨P.deactivateOk, r.lines,
          [Ev.create, Ev.getMetadata, Ev.activate] ++ r.events ++ [Ev.deactivate, Ev.destroy]⟩
  else some ⟨false, [], [Ev.create, Ev.getMetadata, Ev.activate, Ev.destroy]⟩

/-- Remaining external oracles used by `main`: whether
`acc_driver_hal_init` and `acc_rss_activate` succeed, and whether the
mode's `acc_service_*_configuration_create` call returns a non-null
configuration (the only way `set_up_power_bin` / `set_up_envelope` /
`set_up_iq` can return null, acc_service_data_logger.c:477-512,
600-637, 725-758 — every other call in them is a setter). -/
structure World where
  hal_ok : Bool
  rss_ok : Bool
  config_create_ok : Bool

/-- Process exit status. -/
inductive ExitCode
  | success
  | failure
deriving DecidableEq, Repr

/-- `main` (acc_service_data_logger.c:117-253).  The returned event list
is the sequence of service-provider calls made by the selected
`execute_*` function.  Branches in source order: HAL init failure
(125-128), parse failure (130-138), RSS activation failure (144-147),
then the `switch`.  The `POWER_BIN` and `ENVELOPE` cases return
`EXIT_FAILURE` immediately when their `set_up_*` call returns null
(157-165, 188-196).  The `IQ` case (215-242) checks for a null
configuration and frees `file_path`, but — unlike the other two cases —
has no `return` in that branch, so `execute_iq` is invoked anyway with
the null configuration; this is transcribed faithfully below. -/
def mainRun (w : World) (Ppb : PBProvider) (Pe : EnvProvider) (Piq : IQProvider)
    (S : Sys) (opts : List Opt) (fuel : Nat) : Option (ExitCode × List Ev) :=
  if w.hal_ok = false then some (ExitCode.failure, [])
  else
    match parse_options opts with
    | ParseResult.failUsage => some (ExitCode.failure, [])
    | ParseResult.fatalExit => some (ExitCode.failure, [])
    | ParseResult.ok input =>
      if w.rss_ok = false then some (ExitCode.failure, [])
      else
        match input.service_type with
        | ServiceType.power_bin =>
          if w.config_create_ok = false then some (ExitCode.failure, [])
          else
            match execute_power_bin Ppb S input.file_path input.wait_for_interrupt
                input.update_count fuel with
            | none => none
            | some r =>
              some ((if r.ret then ExitCode.success else ExitCode.failure), r.events)
        | ServiceType.envelope =>
          if w.config_create_ok = false then some (ExitCode.failure, [])
          else
            match execute_envelope Pe S input.file_path input.wait_for_interrupt
                input.update_count fuel with
            | none => none
            | some r =>
              some ((if r.ret then ExitCode.success else ExitCode.failure), r.events)
        | ServiceType.iq =>
          match execute_iq Piq S input.file_path input.wait_for_interrupt
              input.update_count fuel with
          | none => none
          | some r =>
            some ((if r.ret then ExitCode.success else ExitCode.failure), r.events)
        | ServiceType.invalid => some (ExitCode.failure, [])

/-- `[k, k+1, ..., k+n-1]`: the poll indices a segment of the loop
visits. -/
def idxList : Nat → Nat → List Nat
  | _, 0 => []
  | k, n + 1 => k :: idxList (k + 1) n

/-- Fine-grained temporal model of an unbounded run for cancellation
claims: iteration `k` of the loop consists of two atomic events, the
condition check (reading `interrupted`) at global index `2*k` and the
poll completion / line write at global index `2*k + 1`.  The SIGINT
handler runs just before event index `p`, so the check at index `2*k`
sees `interrupted = 1` exactly when `p ≤ 2*k`. -/
def flagAt (p k : Nat) : Bool :=
  decide (p ≤ 2 * k)

/-- Among `total` polls (the `k`-th completing at event index
`2*k + 1`), how many complete at or after the signal arrival at event
index `p` — i.e. how many frame lines are written after the flag is
set. -/
def writesAfterSignal (p total : Nat) : Nat :=
  ((List.range total).filter (fun k => decide (p ≤ 2 * k + 1))).length

/-! ### Helper lemmas about the loop, the execute functions and `main` -/


theorem idxList_length : ∀ (n k : Nat), (idxList k n).length = n := by
  intro n
  induction n with
  | zero => intro k; rfl
  | succ n ih => intro k; simp [idxList, ih]

theorem idxList_mem : ∀ (n k j : Nat), j ∈ idxList k n ↔ k ≤ j ∧ j < k + n := by
  intro n
  induction n with
  | zero => intro k j; simp [idxList]
  | succ n ih => intro k j; simp [idxList, ih]; omega

theorem idxList_getElem? : ∀ (n k i : Nat), i < n → (idxList k n)[i]? = some (k + i) := by
  intro n
  induction n with
  | zero => intro k i h; omega
  | succ n ih =>
    intro k i h
    cases i with
    | zero => simp [idxList]
    | succ i =>
      have := ih (k + 1) i (by omega)
      simp only [idxList, List.getElem?_cons_succ, this]
      congr 1
      omega

theorem pollLoop_bounded (pok : Nat → Bool) (f : Nat → List String) (intr : Nat → Bool)
    (uc : Nat) (huc : uc < 65536) (hok : ∀ j, pok j = true) :
    ∀ (fuel updates k : Nat), updates ≤ uc → uc - updates < fuel →
      pollLoop pok f intr false uc fuel updates k =
        ⟨(idxList k (uc - updates)).map (lineOf f),
         (idxList k (uc - updates)).map Ev.getNext, LoopExit.normal⟩ := by
  intro fuel
  induction fuel with
  | zero => intro updates k h1 h2; omega
  | succ fuel ih =>
    intro updates k h1 h2
    by_cases hlt : updates < uc
    · have hmod : (updates + 1) % 65536 = updates + 1 := Nat.mod_eq_of_lt (by omega)
      have hrec := ih (updates + 1) (k + 1) (by omega) (by omega)
      have hn : uc - updates = (uc - (updates + 1)) + 1 := by omega
      simp [pollLoop, hlt, hok k, hmod, hrec, hn, idxList]
    · have he : uc - updates = 0 := by omega
      simp [pollLoop, hlt, he, idxList]


theorem pollLoop_unbounded_stop (pok : Nat → Bool) (f : Nat → List String) (intr : Nat → Bool)
    (hok : ∀ j, pok j = true) :
    ∀ (m fuel updates k : Nat), m < fuel → (∀ j, j < m → intr (k + j) = false) →
      intr (k + m) = true →
      pollLoop pok f intr true 0 fuel updates k =
        ⟨(idxList k m).map (lineOf f), (idxList k m).map Ev.getNext, LoopExit.normal⟩ := by
  intro m
  induction m with
  | zero =>
    intro fuel updates k hf h1 h2
    obtain ⟨fuel', rfl⟩ : ∃ q, fuel = q + 1 := ⟨fuel - 1, by omega⟩
    have h2' : intr k = true := by simpa using h2
    simp [pollLoop, h2', idxList]
  | succ m ih =>
    intro fuel updates k hf h1 h2
    obtain ⟨fuel', rfl⟩ : ∃ q, fuel = q + 1 := ⟨fuel - 1, by omega⟩
    have h0 : intr k = false := by simpa using h1 0 (by omega)
    have h1' : ∀ j, j < m → intr (k + 1 + j) = false := by
      intro j hj
      have := h1 (j + 1) (by omega)
      rwa [show k + (j + 1) = k + 1 + j by omega] at this
    have h2' : intr (k + 1 + m) = true := by
      rwa [show k + (m + 1) = k + 1 + m by omega] at h2
    have hrec := ih fuel' updates (k + 1) (by omega) h1' h2'
    simp [pollLoop, h0, hok k, hrec, idxList]

theorem pollLoop_unbounded_no_stop (pok : Nat → Bool) (f : Nat → List String) (intr : Nat → Bool)
    (hok : ∀ j, pok j = true) (hintr : ∀ k, intr k = false) :
    ∀ (fuel updates k : Nat),
      (pollLoop pok f intr true 0 fuel updates k).outcome = LoopExit.fuelOut := by
  intro fuel
  induction fuel with
  | zero => intro updates k; rfl
  | succ fuel ih =>
    intro updates k
    simp [pollLoop, hintr k, hok k, ih]


theorem pollLoop_events_only_getNext (pok : Nat → Bool) (f : Nat → List String)
    (intr : Nat → Bool) (wfi : Bool) (uc : Nat) :
    ∀ (fuel updates k : Nat) (e : Ev),
      e ∈ (pollLoop pok f intr wfi uc fuel updates k).events → ∃ j, e = Ev.getNext j := by
  intro fuel
  induction fuel with
  | zero => intro updates k e h; simp [pollLoop] at h
  | succ fuel ih =>
    intro updates k e h
    by_cases hcond : ((wfi && !intr k) || decide (updates < uc)) = true
    · by_cases hk : pok k = true
      · simp only [pollLoop, hcond, if_true, hk] at h
        simp at h
        rcases h with h | h
        · exact ⟨k, h⟩
        · exact ih _ _ e h
      · simp only [pollLoop, hcond, if_true, Bool.not_eq_true] at h
        rw [Bool.not_eq_true] at hk
        simp [hk] at h
        exact ⟨k, h⟩
    · simp only [pollLoop, hcond, if_false] at h
      simp at h

theorem pollLoop_bounded_intr_irrel (pok : Nat → Bool) (f : Nat → List String)
    (i1 i2 : Nat → Bool) (uc : Nat) :
    ∀ (fuel updates k : Nat),
      pollLoop pok f i1 false uc fuel updates k = pollLoop pok f i2 false uc fuel updates k := by
  intro fuel
  induction fuel with
  | zero => intro updates k; rfl
  | succ fuel ih =>
    intro updates k
    simp [pollLoop, ih]

theorem pollLoop_fail_at (pok : Nat → Bool) (f : Nat → List String) (intr : Nat → Bool)
    (wfi : Bool) (uc : Nat) :
    ∀ (fuel m updates k : Nat), (∀ j, j < m → pok (k + j) = true) → pok (k + m) = false →
      Ev.getNext (k + m) ∈ (pollLoop pok f intr wfi uc fuel updates k).events →
      pollLoop pok f intr wfi uc fuel updates k =
        ⟨(idxList k m).map (lineOf f),
         (idxList k m).map Ev.getNext ++ [Ev.getNext (k + m)], LoopExit.pollFail⟩ := by
  intro fuel
  induction fuel with
  | zero => intro m updates k h1 h2 hmem; simp [pollLoop] at hmem
  | succ fuel ih =>
    intro m updates k h1 h2 hmem
    by_cases hcond : ((wfi && !intr k) || decide (updates < uc)) = true
    · by_cases hk : pok k = true
      · have hstep : pollLoop pok f intr wfi uc (fuel + 1) updates k =
            ⟨lineOf f k :: (pollLoop pok f intr wfi uc fuel
                (if wfi then updates else (updates + 1) % 65536) (k + 1)).lines,
             Ev.getNext k :: (pollLoop pok f intr wfi uc fuel
                (if wfi then updates else (updates + 1) % 65536) (k + 1)).events,
             (pollLoop pok f intr wfi uc fuel
                (if wfi then updates else (updates + 1) % 65536) (k + 1)).outcome⟩ := by
          simp only [pollLoop]
          rw [if_pos hcond, if_pos hk]
        cases m with
        | zero =>
          rw [Nat.add_zero, hk] at h2
          cases h2
        | succ m =>
          rw [show k + (m + 1) = k + 1 + m by omega] at h2 hmem ⊢
          rw [hstep] at hmem ⊢
          have hmem2 : Ev.getNext (k + 1 + m) ∈
              (pollLoop pok f intr wfi uc fuel
                (if wfi then updates else (updates + 1) % 65536) (k + 1)).events := by
            rcases List.mem_cons.mp hmem with h | h
            · exfalso
              injection h with h'
              omega
            · exact h
          have h1' : ∀ j, j < m → pok (k + 1 + j) = true := by
            intro j hj
            have := h1 (j + 1) (by omega)
            rwa [show k + (j + 1) = k + 1 + j by omega] at this
          have hrec := ih m (if wfi then updates else (updates + 1) % 65536) (k + 1) h1' h2 hmem2
          rw [hrec]
          simp [idxList]
      · have hstep : pollLoop pok f intr wfi uc (fuel + 1) updates k =
            ⟨[], [Ev.getNext k], LoopExit.pollFail⟩ := by
          simp only [pollLoop]
          rw [if_pos hcond, if_neg hk]
        rw [hstep] at hmem ⊢
        have hm : m = 0 := by
          have h := List.mem_singleton.mp hmem
          injection h with h'
          omega
        subst hm
        simp [idxList]
    · have hstep : pollLoop pok f intr wfi uc (fuel + 1) updates k =
          ⟨[], [], LoopExit.normal⟩ := by
        simp only [pollLoop]
        rw [if_neg hcond]
      rw [hstep] at hmem
      simp at hmem

theorem execute_power_bin_eq (P : PBProvider) (S : Sys) (fp : Option String) (wfi : Bool)
    (uc fuel : Nat) (hc : P.createOk = true) (ha : P.activateOk = true)
    (hf : (fp.isSome && !S.fopenOk) = false) :
    execute_power_bin P S fp wfi uc fuel =
      match pollLoop P.pollOk (pbFields P) S.interruptedAt wfi uc fuel 0 0 with
      | ⟨_, _, LoopExit.fuelOut⟩ => none
      | ⟨L, E, LoopExit.pollFail⟩ =>
        some ⟨false, L, [Ev.create, Ev.getMetadata, Ev.activate] ++ E⟩
      | ⟨L, E, LoopExit.normal⟩ =>
        some ⟨P.deactivateOk, L,
          [Ev.create, Ev.getMetadata, Ev.activate] ++ E ++ [Ev.deactivate, Ev.destroy]⟩ := by
  rcases hp : pollLoop P.pollOk (pbFields P) S.interruptedAt wfi uc fuel 0 0 with ⟨L, E, o⟩
  cases o <;> simp [execute_power_bin, hc, ha, hf, hp]

theorem execute_iq_eq (P : IQProvider) (S : Sys) (fp : Option String) (wfi : Bool)
    (uc fuel : Nat) (hc : P.createOk = true) (ha : P.activateOk = true)
    (hf : (fp.isSome && !S.fopenOk) = false) :
    execute_iq P S fp wfi uc fuel =
      match pollLoop P.pollOk (iqFields P) S.interruptedAt wfi uc fuel 0 0 with
      | ⟨_, _, LoopExit.fuelOut⟩ => none
      | ⟨L, E, LoopExit.pollFail⟩ =>
        some ⟨false, L, [Ev.create, Ev.getMetadata, Ev.activate] ++ E⟩
      | ⟨L, E, LoopExit.normal⟩ =>
        some ⟨P.deactivateOk, L,
          [Ev.create, Ev.getMetadata, Ev.activate] ++ E ++ [Ev.deactivate, Ev.destroy]⟩ := by
  rcases hp : pollLoop P.pollOk (iqFields P) S.interruptedAt wfi uc fuel 0 0 with ⟨L, E, o⟩
  cases o <;> simp [execute_iq, hc, ha, hf, hp]

theorem execute_power_bin_cases (P : PBProvider) (S : Sys) (fp : Option String) (wfi : Bool)
    (uc fuel : Nat) (r : ExecResult)
    (h : execute_power_bin P S fp wfi uc fuel = some r) :
    (P.createOk = false ∧ r = ⟨false, [], [Ev.create]⟩) ∨
    (P.createOk = true ∧ P.activateOk = false ∧
      r = ⟨false, [], [Ev.create, Ev.getMetadata, Ev.activate, Ev.destroy]⟩) ∨
    (P.createOk = true ∧ P.activateOk = true ∧ (fp.isSome && !S.fopenOk) = true ∧
      r = ⟨false, [], [Ev.create, Ev.getMetadata, Ev.activate]⟩) ∨
    (P.createOk = true ∧ P.activateOk = true ∧ (fp.isSome && !S.fopenOk) = false ∧
      ∃ L E, pollLoop P.pollOk (pbFields P) S.interruptedAt wfi uc fuel 0 0 =
          ⟨L, E, LoopExit.pollFail⟩ ∧
        r = ⟨false, L, [Ev.create, Ev.getMetadata, Ev.activate] ++ E⟩) ∨
    (P.createOk = true ∧ P.activateOk = true ∧ (fp.isSome && !S.fopenOk) = false ∧
      ∃ L E, pollLoop P.pollOk (pbFields P) S.interruptedAt wfi uc fuel 0 0 =
          ⟨L, E, LoopExit.normal⟩ ∧
        r = ⟨P.deactivateOk, L,
          [Ev.create, Ev.getMetadata, Ev.activate] ++ E ++ [Ev.deactivate, Ev.destroy]⟩) := by
  cases hc : P.createOk with
  | false =>
    left
    simp [execute_power_bin, hc] at h
    exact ⟨rfl, h.symm⟩
  | true =>
    cases ha : P.activateOk with
    | false =>
      right; left
      simp [execute_power_bin, hc, ha] at h
      exact ⟨rfl, rfl, h.symm⟩
    | true =>
      cases hf : (fp.isSome && !S.fopenOk) with
      | true =>
        right; right; left
        simp [execute_power_bin, hc, ha, hf] at h
        exact ⟨rfl, rfl, rfl, h.symm⟩
      | false =>
        rw [execute_power_bin_eq P S fp wfi uc fuel hc ha hf] at h
        rcases hp : pollLoop P.pollOk (pbFields P) S.interruptedAt wfi uc fuel 0 0 with ⟨L, E, o⟩
        rw [hp] at h
        cases o with
        | fuelOut => simp at h
        | pollFail =>
          right; right; right; left
          simp at h
          exact ⟨rfl, rfl, rfl, L, E, rfl, h.symm⟩
        | normal =>
          right; right; right; right
          simp at h
          exact ⟨rfl, rfl, rfl, L, E, rfl, h.symm⟩

theorem mainRun_power_bin_eq (w : World) (Ppb : PBProvider) (Pe : EnvProvider)
    (Piq : IQProvider) (S : Sys) (opts : List Opt) (fuel : Nat) (input : Input)
    (hhal : w.hal_ok = true) (hrss : w.rss_ok = true) (hcfg : w.config_create_ok = true)
    (hp : parse_options opts = ParseResult.ok input)
    (ht : input.service_type = ServiceType.power_bin) :
    mainRun w Ppb Pe Piq S opts fuel =
      Option.map (fun r => ((if r.ret then ExitCode.success else ExitCode.failure), r.events))
        (execute_power_bin Ppb S input.file_path input.wait_for_interrupt
          input.update_count fuel) := by
  unfold mainRun
  rw [hp]
  simp only [hhal, hrss, hcfg, ht]
  cases hx : execute_power_bin Ppb S input.file_path input.wait_for_interrupt
      input.update_count fuel <;> simp [hx]

theorem iqFields_length (P : IQProvider) (k : Nat) :
    (iqFields P k).length = 2 * P.data_length := by
  unfold iqFields
  generalize P.data_length = n
  induction n with
  | zero => simp
  | succ n ih =>
    rw [List.range_succ]
    simp only [List.flatMap_append, List.length_append, ih]
    simp
    omega


/-! ### The claims -/

/-! ### Claim C1 -/

/-- C1: the claim states `acc_service_destroy` is invoked exactly once
before the execute function returns on every exit path, including
output-file open failure and poll failure.  Evaluating the embedded
`execute_power_bin` on those two paths refutes this: with a file path
whose `fopen` fails (first conjunct pair) and with a first poll that
fails (second conjunct pair), the function returns with zero `destroy`
events — the early `return false` at acc_service_data_logger.c:546 and
:573 skips `acc_service_destroy`. -/
theorem C1_destroy_skipped_on_early_returns :
    (execute_power_bin ⟨true, 3, true, (fun _ => true), (fun _ _ => 7), true⟩
        ⟨false, fun _ => false⟩ (some "log.txt") false 2 5 =
      some ⟨false, [], [Ev.create, Ev.getMetadata, Ev.activate]⟩) ∧
    ([Ev.create, Ev.getMetadata, Ev.activate].count Ev.destroy = 0) ∧
    (execute_power_bin ⟨true, 3, true, (fun _ => false), (fun _ _ => 7), true⟩
        ⟨true, fun _ => false⟩ none false 2 5 =
      some ⟨false, [], [Ev.create, Ev.getMetadata, Ev.activate, Ev.getNext 0]⟩) ∧
    ([Ev.create, Ev.getMetadata, Ev.activate, Ev.getNext 0].count Ev.destroy = 0) := by
  exact ⟨rfl, rfl, rfl, rfl⟩

/-! ### Claim C3 -/

/-- C3: the claim states that when a mode's configuration builder
returns null the run fails with no further provider calls.  This holds
for power-bin and envelope (second and third conjuncts: no provider
events at all), but the `IQ` case of `main`
(acc_service_data_logger.c:215-242) lacks the `return EXIT_FAILURE`
after freeing `file_path`, so `execute_iq` is still invoked with the
null configuration and `acc_service_create` is called (first conjunct:
the event list contains `create`). -/
theorem C3_iq_null_config_still_calls_create :
    (mainRun ⟨true, true, false⟩
        ⟨true, 1, true, (fun _ => true), (fun _ _ => 0), true⟩
        ⟨true, 1, true, (fun _ => true), (fun _ _ => 0), true⟩
        ⟨false, 0, false, (fun _ => false), (fun _ _ => ("0", "0")), false⟩
        ⟨true, fun _ => false⟩ [Opt.t 2] 1 =
      some (ExitCode.failure, [Ev.create])) ∧
    Ev.create ∈ [Ev.create] ∧
    (mainRun ⟨true, true, false⟩
        ⟨true, 1, true, (fun _ => true), (fun _ _ => 0), true⟩
        ⟨true, 1, true, (fun _ => true), (fun _ _ => 0), true⟩
        ⟨false, 0, false, (fun _ => false), (fun _ _ => ("0", "0")), false⟩
        ⟨true, fun _ => false⟩ [Opt.t 0] 1 =
      some (ExitCode.failure, [])) ∧
    (mainRun ⟨true, true, false⟩
        ⟨true, 1, true, (fun _ => true), (fun _ _ => 0), true⟩
        ⟨true, 1, true, (fun _ => true), (fun _ _ => 0), true⟩
        ⟨false, 0, false, (fun _ => false), (fun _ _ => ("0", "0")), false⟩
        ⟨true, fun _ => false⟩ [Opt.t 1] 1 =
      some (ExitCode.failure, [])) := by
  exact ⟨rfl, List.mem_singleton.mpr rfl, rfl, rfl⟩

/-! ### Claim C5 -/

/-- C5 counterexample: a run with update count 0 need not be unbounded.
Supplying `-c 0` stores `update_count = 0` but also clears
`wait_for_interrupt` (acc_service_data_logger.c:339-344); the loop
condition `(false && ...) || 0 < 0` is then false at once, so with the
cancellation flag never set the run still terminates immediately with
zero frames — refuting "stops only when the cancellation flag is set,
never because of the counter". -/
theorem C5_counterexample_sweep_count_zero :
    parse_options [Opt.t 0, Opt.c 0] =
      ParseResult.ok { default_input with
        service_type := ServiceType.power_bin, update_count := 0,
        wait_for_interrupt := false } ∧
    execute_power_bin ⟨true, 3, true, (fun _ => true), (fun _ _ => 7), true⟩
        ⟨true, fun _ => false⟩ none false 0 5 =
      some ⟨true, [], [Ev.create, Ev.getMetadata, Ev.activate, Ev.deactivate, Ev.destroy]⟩ := by
  exact ⟨rfl, rfl⟩

theorem parse_one_preserves_count (st st2 : Input) (op : Opt) (hne : ∀ v, op ≠ Opt.c v)
    (h : parse_one st op = ParseResult.ok st2) :
    st2.update_count = st.update_count ∧
      st2.wait_for_interrupt = st.wait_for_interrupt := by
  cases op <;>
    first
    | exact absurd rfl (hne _)
    | (simp only [parse_one] at h; cases h; exact ⟨rfl, rfl⟩)
    | (simp only [parse_one] at h; split_ifs at h <;> cases h <;> exact ⟨rfl, rfl⟩)
    | (simp only [parse_one] at h; cases h)

theorem parse_go_no_c (opts : List Opt) :
    ∀ (st i : Input), (∀ v, Opt.c v ∉ opts) → parse_go st opts = ParseResult.ok i →
      i.update_count = st.update_count ∧
        i.wait_for_interrupt = st.wait_for_interrupt := by
  induction opts with
  | nil =>
    intro st i h hp
    by_cases hs : st.service_type = ServiceType.invalid
    · simp [parse_go, hs] at hp
    · simp [parse_go, hs] at hp
      cases hp
      exact ⟨rfl, rfl⟩
  | cons op rest ih =>
    intro st i h hp
    have hop : ∀ v, op ≠ Opt.c v := by
      intro v hv
      exact h v (by simp [hv])
    have hrest : ∀ v, Opt.c v ∉ rest := by
      intro v hv
      exact h v (by simp [hv])
    cases hpo : parse_one st op with
    | ok st2 =>
      rw [show parse_go st (op :: rest) =
          (match parse_one st op with
           | ParseResult.ok st2 => parse_go st2 rest
           | ParseResult.failUsage => ParseResult.failUsage
           | ParseResult.fatalExit => ParseResult.fatalExit) from rfl, hpo] at hp
      obtain ⟨e1, e2⟩ := ih st2 i hrest hp
      obtain ⟨f1, f2⟩ := parse_one_preserves_count st st2 op hop hpo
      exact ⟨e1.trans f1, e2.trans f2⟩
    | failUsage =>
      rw [show parse_go st (op :: rest) =
          (match parse_one st op with
           | ParseResult.ok st2 => parse_go st2 rest
           | ParseResult.failUsage => ParseResult.failUsage
           | ParseResult.fatalExit => ParseResult.fatalExit) from rfl, hpo] at hp
      cases hp
    | fatalExit =>
      rw [show parse_go st (op :: rest) =
          (match parse_one st op with
           | ParseResult.ok st2 => parse_go st2 rest
           | ParseResult.failUsage => ParseResult.failUsage
           | ParseResult.fatalExit => ParseResult.fatalExit) from rfl, hpo] at hp
      cases hp

/-- C5 (amended): a run has update count 0 and remains unbounded exactly
when the sweep-count option was never supplied: then
`wait_for_interrupt` is still true (first conjunct), the loop never
terminates while the cancellation flag stays clear (second conjunct),
and it stops at the first loop-condition check that sees the flag,
having written one line per completed poll (third conjunct) — the
counter never ends the loop since `updates < 0` is false.  (If `-c 0`
is supplied, `update_count` is 0 but `wait_for_interrupt` is false and
the run exits immediately; see the counterexample.) -/
theorem C5_amended_unbounded_runs :
    (∀ (opts : List Opt) (i : Input), (∀ v, Opt.c v ∉ opts) →
      parse_options opts = ParseResult.ok i →
      i.update_count = 0 ∧ i.wait_for_interrupt = true) ∧
    (∀ (P : PBProvider) (S : Sys) (fuel : Nat), P.createOk = true → P.activateOk = true →
      (∀ j, P.pollOk j = true) → (∀ k, S.interruptedAt k = false) →
      execute_power_bin P S none true 0 fuel = none) ∧
    (∀ (P : PBProvider) (S : Sys) (fuel k0 : Nat), P.createOk = true → P.activateOk = true →
      (∀ j, P.pollOk j = true) → (∀ j, j < k0 → S.interruptedAt j = false) →
      S.interruptedAt k0 = true → k0 < fuel →
      execute_power_bin P S none true 0 fuel =
        some ⟨P.deactivateOk, (idxList 0 k0).map (lineOf (pbFields P)),
          [Ev.create, Ev.getMetadata, Ev.activate] ++ (idxList 0 k0).map Ev.getNext ++
            [Ev.deactivate, Ev.destroy]⟩) := by
  refine ⟨?_, ?_, ?_⟩
  · intro opts i h hp
    exact parse_go_no_c opts default_input i h hp
  · intro P S fuel hc ha hok hintr
    rw [execute_power_bin_eq P S none true 0 fuel hc ha (by simp)]
    rcases hp : pollLoop P.pollOk (pbFields P) S.interruptedAt true 0 fuel 0 0 with ⟨L, E, o⟩
    have ho := pollLoop_unbounded_no_stop P.pollOk (pbFields P) S.interruptedAt hok hintr fuel 0 0
    rw [hp] at ho
    cases ho
    rfl
  · intro P S fuel k0 hc ha hok hintr hk0 hfuel
    have h1 : ∀ j, j < k0 → S.interruptedAt (0 + j) = false := by
      intro j hj
      rw [Nat.zero_add]
      exact hintr j hj
    have h2 : S.interruptedAt (0 + k0) = true := by rwa [Nat.zero_add]
    have hloop := pollLoop_unbounded_stop P.pollOk (pbFields P) S.interruptedAt hok
      k0 fuel 0 0 hfuel h1 h2
    rw [execute_power_bin_eq P S none true 0 fuel hc ha (by simp), hloop]

/-- C5 amended-claim witness: concrete instances of the three parts,
with `-t 0` and no sweep-count option, an all-succeeding provider, the
flag never set (fuel 3) and the flag first seen at check 2 (fuel 4). -/
theorem C5_amended_witness :
    ((Input.mk ServiceType.power_bin 0 true (7/100) (1/2) 10 10 (-1) 0 (-1) 1
        LogLevel.error none).update_count = 0 ∧
      (Input.mk ServiceType.power_bin 0 true (7/100) (1/2) 10 10 (-1) 0 (-1) 1
        LogLevel.error none).wait_for_interrupt = true) ∧
    (execute_power_bin ⟨true, 1, true, (fun _ => true), (fun _ _ => 9), true⟩
      ⟨true, fun _ => false⟩ none true 0 3 = none) ∧
    (execute_power_bin ⟨true, 1, true, (fun _ => true), (fun _ _ => 9), true⟩
      ⟨true, fun k => decide (2 ≤ k)⟩ none true 0 4 =
      some ⟨true, ["9\t\n", "9\t\n"],
        [Ev.create, Ev.getMetadata, Ev.activate, Ev.getNext 0, Ev.getNext 1,
          Ev.deactivate, Ev.destroy]⟩) := by
  refine ⟨?_, ?_, ?_⟩
  · exact C5_amended_unbounded_runs.1 [Opt.t 0] _
      (by intro v hv; simp at hv) rfl
  · exact C5_amended_unbounded_runs.2.1 _ _ 3 rfl rfl (fun _ => rfl) (fun _ => rfl)
  · have := C5_amended_unbounded_runs.2.2
      ⟨true, 1, true, (fun _ => true), (fun _ _ => 9), true⟩
      ⟨true, fun k => decide (2 ≤ k)⟩ 4 2 rfl rfl (fun _ => rfl)
      (by intro j hj; interval_cases j <;> rfl) (by rfl) (by omega)
    simpa using this

/-! ### Claim C2 -/

/-- C2: in a bounded run (`wait_for_interrupt` false, `update_count = N
> 0`) with an always-succeeding provider, exactly `N` lines are
written: the result is one line per poll index `0..N-1` (first
conjunct), of length `N` (second), the `j`-th line being the joined
tab-terminated fields of frame `j` with exactly `bin_count` fields
(third); the same holds for IQ where each line carries `2 *
data_length` fields, two per complex sample (fourth and fifth); and the
spec's concrete example — power-bin, 3 bins, 2 updates, frames
`[1,2,3]` then `[4,5,6]` — produces exactly the two lines
`"1\t2\t3\t\n"` and `"4\t5\t6\t\n"` (last conjunct). -/
theorem C2_bounded_run_lines
    (P : PBProvider) (S : Sys) (fp : Option String) (Q : IQProvider) (S2 : Sys)
    (N fuel fuel2 : Nat) (hN : 0 < N) (hN16 : N < 65536) (hfuel : N < fuel)
    (hc : P.createOk = true) (ha : P.activateOk = true) (hok : ∀ j, P.pollOk j = true)
    (hf : (fp.isSome && !S.fopenOk) = false)
    (hc2 : Q.createOk = true) (ha2 : Q.activateOk = true) (hok2 : ∀ j, Q.pollOk j = true)
    (hfuel2 : N < fuel2) :
    (execute_power_bin P S fp false N fuel =
      some ⟨P.deactivateOk, (idxList 0 N).map (lineOf (pbFields P)),
        [Ev.create, Ev.getMetadata, Ev.activate] ++ (idxList 0 N).map Ev.getNext ++
          [Ev.deactivate, Ev.destroy]⟩) ∧
    ((idxList 0 N).map (lineOf (pbFields P))).length = N ∧
    (∀ j, j < N →
      ((idxList 0 N).map (lineOf (pbFields P)))[j]? =
        some (String.join (pbFields P j) ++ "\n") ∧
      (pbFields P j).length = P.bin_count) ∧
    (execute_iq Q S2 none false N fuel2 =
      some ⟨Q.deactivateOk, (idxList 0 N).map (lineOf (iqFields Q)),
        [Ev.create, Ev.getMetadata, Ev.activate] ++ (idxList 0 N).map Ev.getNext ++
          [Ev.deactivate, Ev.destroy]⟩) ∧
    (∀ j, (iqFields Q j).length = 2 * Q.data_length) ∧
    (execute_power_bin ⟨true, 3, true, (fun _ => true), (fun k i => 3 * k + i + 1), true⟩
        ⟨true, fun _ => false⟩ none false 2 3 =
      some ⟨true, ["1\t2\t3\t\n", "4\t5\t6\t\n"],
        [Ev.create, Ev.getMetadata, Ev.activate, Ev.getNext 0, Ev.getNext 1,
          Ev.deactivate, Ev.destroy]⟩) := by
  have hloop := pollLoop_bounded P.pollOk (pbFields P) S.interruptedAt N hN16 hok
    fuel 0 0 (by omega) (by omega)
  rw [Nat.sub_zero] at hloop
  have hloop2 := pollLoop_bounded Q.pollOk (iqFields Q) S2.interruptedAt N hN16 hok2
    fuel2 0 0 (by omega) (by omega)
  rw [Nat.sub_zero] at hloop2
  refine ⟨?_, ?_, ?_, ?_, ?_, rfl⟩
  · rw [execute_power_bin_eq P S fp false N fuel hc ha hf, hloop]
  · simp [idxList_length]
  · intro j hj
    constructor
    · rw [List.getElem?_map, idxList_getElem? N 0 j hj]
      simp [lineOf]
    · simp [pbFields]
  · rw [execute_iq_eq Q S2 none false N fuel2 hc2 ha2 (by simp), hloop2]
  · intro j
    exact iqFields_length Q j

/-- C2 witness: the theorem applied at the spec's own example (3 bins,
frames `[1,2,3]` and `[4,5,6]`, `N = 2`) and a 1-sample IQ provider. -/
theorem C2_bounded_run_lines_witness :
    (execute_power_bin ⟨true, 3, true, (fun _ => true), (fun k i => 3 * k + i + 1), true⟩
        ⟨true, fun _ => false⟩ none false 2 3 =
      some ⟨true, (idxList 0 2).map
          (lineOf (pbFields ⟨true, 3, true, (fun _ => true), (fun k i => 3 * k + i + 1), true⟩)),
        [Ev.create, Ev.getMetadata, Ev.activate] ++ (idxList 0 2).map Ev.getNext ++
          [Ev.deactivate, Ev.destroy]⟩) ∧
    ((idxList 0 2).map
      (lineOf (pbFields ⟨true, 3, true, (fun _ => true),
        (fun k i => 3 * k + i + 1), true⟩))).length = 2 ∧
    (∀ j, j < 2 →
      ((idxList 0 2).map
        (lineOf (pbFields ⟨true, 3, true, (fun _ => true),
          (fun k i => 3 * k + i + 1), true⟩)))[j]? =
        some (String.join
          (pbFields ⟨true, 3, true, (fun _ => true), (fun k i => 3 * k + i + 1), true⟩ j)
            ++ "\n") ∧
      (pbFields ⟨true, 3, true, (fun _ => true), (fun k i => 3 * k + i + 1), true⟩ j).length
        = 3) ∧
    (execute_iq ⟨true, 1, true, (fun _ => true), (fun _ _ => ("0", "1")), true⟩
        ⟨true, fun _ => false⟩ none false 2 3 =
      some ⟨true, (idxList 0 2).map
          (lineOf (iqFields ⟨true, 1, true, (fun _ => true), (fun _ _ => ("0", "1")), true⟩)),
        [Ev.create, Ev.getMetadata, Ev.activate] ++ (idxList 0 2).map Ev.getNext ++
          [Ev.deactivate, Ev.destroy]⟩) ∧
    (∀ j, (iqFields ⟨true, 1, true, (fun _ => true),
      (fun _ _ => ("0", "1")), true⟩ j).length = 2 * 1) ∧
    (execute_power_bin ⟨true, 3, true, (fun _ => true), (fun k i => 3 * k + i + 1), true⟩
        ⟨true, fun _ => false⟩ none false 2 3 =
      some ⟨true, ["1\t2\t3\t\n", "4\t5\t6\t\n"],
        [Ev.create, Ev.getMetadata, Ev.activate, Ev.getNext 0, Ev.getNext 1,
          Ev.deactivate, Ev.destroy]⟩) :=
  C2_bounded_run_lines
    ⟨true, 3, true, (fun _ => true), (fun k i => 3 * k + i + 1), true⟩
    ⟨true, fun _ => false⟩ none
    ⟨true, 1, true, (fun _ => true), (fun _ _ => ("0", "1")), true⟩
    ⟨true, fun _ => false⟩ 2 3 3 (by decide) (by decide) (by decide)
    rfl rfl (fun _ => rfl) (by decide) rfl rfl (fun _ => rfl) (by decide)

/-! ### Claim C9 -/

/-- C9: in a bounded run (`wait_for_interrupt` false, positive update
count) the interrupt flag does not influence the loop: the entire
result of `execute_power_bin` — return value, written lines and
provider calls — is identical for any two histories `f1`, `f2` of the
`interrupted` flag, because the loop condition reduces to
`updates < update_count`. -/
theorem C9_bounded_run_ignores_interrupt_flag
    (P : PBProvider) (fp : Option String) (uc fuel : Nat) (fo : Bool)
    (f1 f2 : Nat → Bool) (huc : 0 < uc) :
    execute_power_bin P ⟨fo, f1⟩ fp false uc fuel =
      execute_power_bin P ⟨fo, f2⟩ fp false uc fuel := by
  have h := pollLoop_bounded_intr_irrel P.pollOk (pbFields P) f1 f2 uc fuel 0 0
  simp only [execute_power_bin]
  rw [h]

/-- C9 witness: a concrete bounded run compared under the
never-interrupted and always-interrupted flag histories. -/
theorem C9_bounded_run_ignores_interrupt_flag_witness :
    0 < 1 ∧
    execute_power_bin ⟨true, 1, true, (fun _ => true), (fun _ _ => 5), true⟩
        ⟨true, fun _ => false⟩ none false 1 2 =
      execute_power_bin ⟨true, 1, true, (fun _ => true), (fun _ _ => 5), true⟩
        ⟨true, fun _ => true⟩ none false 1 2 :=
  ⟨by decide,
    C9_bounded_run_ignores_interrupt_flag
      ⟨true, 1, true, (fun _ => true), (fun _ _ => 5), true⟩ none 1 2 true
      (fun _ => false) (fun _ => true) (by decide)⟩

/-! ### Claim C10 -/

/-- C10: `update_count` is a `uint16_t`, so the `-c` value is stored
modulo `2^16` and the option always clears `wait_for_interrupt` (first
conjunct); hence `-c 65536` parses identically to `-c 0` (second and
third conjuncts), and a run with `update_count = 0` and
`wait_for_interrupt` false writes zero frame lines and performs no poll
at all: the loop exits at its first condition check (last conjunct). -/
theorem C10_sweep_count_is_uint16 :
    (∀ (st : Input) (v : Int), parse_one st (Opt.c v) =
      ParseResult.ok { st with
        update_count := (v % 65536).toNat, wait_for_interrupt := false }) ∧
    (parse_options [Opt.t 0, Opt.c 65536] = parse_options [Opt.t 0, Opt.c 0]) ∧
    (parse_options [Opt.t 0, Opt.c 65536] =
      ParseResult.ok { default_input with
        service_type := ServiceType.power_bin, update_count := 0,
        wait_for_interrupt := false }) ∧
    (∀ (P : PBProvider) (S : Sys) (fuel : Nat) (r : ExecResult), 0 < fuel →
      execute_power_bin P S none false 0 fuel = some r →
      r.lines = [] ∧ ∀ k, Ev.getNext k ∉ r.events) := by
  refine ⟨fun st v => rfl, rfl, rfl, ?_⟩
  intro P S fuel r hfuel hex
  obtain ⟨q, rfl⟩ : ∃ q, fuel = q + 1 := ⟨fuel - 1, by omega⟩
  have hstep : pollLoop P.pollOk (pbFields P) S.interruptedAt false 0 (q + 1) 0 0 =
      ⟨[], [], LoopExit.normal⟩ := by
    simp [pollLoop]
  rcases execute_power_bin_cases P S none false 0 (q + 1) r hex with
    ⟨_, rfl⟩ | ⟨_, _, rfl⟩ | ⟨_, _, hff, _⟩ | ⟨_, _, _, L, E, hp, rfl⟩ | ⟨_, _, _, L, E, hp, rfl⟩
  · exact ⟨rfl, by intro k; simp⟩
  · exact ⟨rfl, by intro k; simp⟩
  · simp at hff
  · rw [hstep] at hp
    cases hp
  · rw [hstep] at hp
    cases hp
    exact ⟨rfl, by intro k; simp⟩

/-- C10 witness: a concrete all-succeeding provider run with
`update_count = 0`, `wait_for_interrupt` false and fuel 1: no lines, no
polls. -/
theorem C10_sweep_count_is_uint16_witness :
    parse_one default_input (Opt.c 65536) =
      ParseResult.ok { default_input with
        update_count := ((65536 : Int) % 65536).toNat, wait_for_interrupt := false } ∧
    (0 < 1 ∧
      (([] : List String) = [] ∧ ∀ k, Ev.getNext k ∉
        [Ev.create, Ev.getMetadata, Ev.activate, Ev.deactivate, Ev.destroy])) :=
  ⟨C10_sweep_count_is_uint16.1 default_input 65536,
    by decide,
    C10_sweep_count_is_uint16.2.2.2
      ⟨true, 1, true, (fun _ => true), (fun _ _ => 9), true⟩ ⟨true, fun _ => false⟩ 1
      ⟨true, [], [Ev.create, Ev.getMetadata, Ev.activate, Ev.deactivate, Ev.destroy]⟩
      (by decide) rfl⟩

/-! ### Claim C6 -/

/-- C6: if `acc_service_activate` fails, the loop is never entered, so
zero frame lines are written, the handle is still destroyed exactly
once (the activation-failure branch falls through to
`acc_service_destroy`, acc_service_data_logger.c:589-596), and `main`
exits with a failure status. -/
theorem C6_activation_failure_no_lines_destroyed
    (P : PBProvider) (S : Sys) (fp : Option String) (wfi : Bool) (uc fuel : Nat)
    (hc : P.createOk = true) (ha : P.activateOk = false) :
    (execute_power_bin P S fp wfi uc fuel =
      some ⟨false, [], [Ev.create, Ev.getMetadata, Ev.activate, Ev.destroy]⟩) ∧
    ([Ev.create, Ev.getMetadata, Ev.activate, Ev.destroy].count Ev.destroy = 1) ∧
    (∀ (w : World) (Pe : EnvProvider) (Piq : IQProvider) (opts : List Opt) (input : Input),
      w.hal_ok = true → w.rss_ok = true → w.config_create_ok = true →
      parse_options opts = ParseResult.ok input →
      input.service_type = ServiceType.power_bin →
      input.file_path = fp → input.wait_for_interrupt = wfi → input.update_count = uc →
      mainRun w P Pe Piq S opts fuel =
        some (ExitCode.failure, [Ev.create, Ev.getMetadata, Ev.activate, Ev.destroy])) := by
  have hex : execute_power_bin P S fp wfi uc fuel =
      some ⟨false, [], [Ev.create, Ev.getMetadata, Ev.activate, Ev.destroy]⟩ := by
    simp [execute_power_bin, hc, ha]
  refine ⟨hex, rfl, ?_⟩
  intro w Pe Piq opts input hhal hrss hcfg hp ht hfp hwfi huc
  rw [mainRun_power_bin_eq w P Pe Piq S opts fuel input hhal hrss hcfg hp ht,
    hfp, hwfi, huc, hex]
  rfl

/-- C6 witness: a concrete provider whose activation fails, run through
both `execute_power_bin` and `main` with `-t 0`. -/
theorem C6_activation_failure_witness :
    (execute_power_bin ⟨true, 1, false, (fun _ => true), (fun _ _ => 0), true⟩
        ⟨true, fun _ => false⟩ none true 0 1 =
      some ⟨false, [], [Ev.create, Ev.getMetadata, Ev.activate, Ev.destroy]⟩) ∧
    ([Ev.create, Ev.getMetadata, Ev.activate, Ev.destroy].count Ev.destroy = 1) ∧
    mainRun ⟨true, true, true⟩ ⟨true, 1, false, (fun _ => true), (fun _ _ => 0), true⟩
        ⟨true, 1, true, (fun _ => true), (fun _ _ => 0), true⟩
        ⟨true, 1, true, (fun _ => true), (fun _ _ => ("0", "0")), true⟩
        ⟨true, fun _ => false⟩ [Opt.t 0] 1 =
      some (ExitCode.failure, [Ev.create, Ev.getMetadata, Ev.activate, Ev.destroy]) := by
  have h := C6_activation_failure_no_lines_destroyed
    ⟨true, 1, false, (fun _ => true), (fun _ _ => 0), true⟩ ⟨true, fun _ => false⟩
    none true 0 1 rfl rfl
  exact ⟨h.1, h.2.1,
    h.2.2 ⟨true, true, true⟩ ⟨true, 1, true, (fun _ => true), (fun _ _ => 0), true⟩
      ⟨true, 1, true, (fun _ => true), (fun _ _ => ("0", "0")), true⟩ [Opt.t 0]
      { default_input with service_type := ServiceType.power_bin }
      rfl rfl rfl rfl rfl rfl rfl rfl⟩

/-! ### Claim C8 -/

/-- C8: whenever a run reaches the `Deactivated` stage (a `deactivate`
provider call appears in its events), the return value of
`execute_power_bin` is exactly the result of `acc_service_deactivate`
(acc_service_data_logger.c:587,596); in particular if deactivation
fails after an all-successful polling run, the function returns `false`
and `main` exits with a failure status. -/
theorem C8_deactivate_result_is_run_outcome
    (P : PBProvider) (S : Sys) (fp : Option String) (wfi : Bool) (uc fuel : Nat)
    (r : ExecResult)
    (hexec : execute_power_bin P S fp wfi uc fuel = some r)
    (hreach : Ev.deactivate ∈ r.events) :
    r.ret = P.deactivateOk ∧
    (P.deactivateOk = false →
      ∀ (w : World) (Pe : EnvProvider) (Piq : IQProvider) (opts : List Opt) (input : Input),
        w.hal_ok = true → w.rss_ok = true → w.config_create_ok = true →
        parse_options opts = ParseResult.ok input →
        input.service_type = ServiceType.power_bin →
        input.file_path = fp → input.wait_for_interrupt = wfi → input.update_count = uc →
        mainRun w P Pe Piq S opts fuel = some (ExitCode.failure, r.events)) := by
  have hret : r.ret = P.deactivateOk := by
    rcases execute_power_bin_cases P S fp wfi uc fuel r hexec with
      ⟨_, rfl⟩ | ⟨_, _, rfl⟩ | ⟨_, _, _, rfl⟩ | ⟨_, _, _, L, E, hp, rfl⟩ |
      ⟨_, _, _, L, E, hp, rfl⟩
    · simp at hreach
    · simp at hreach
    · simp at hreach
    · exfalso
      simp at hreach
      rcases pollLoop_events_only_getNext P.pollOk (pbFields P) S.interruptedAt wfi uc
        fuel 0 0 Ev.deactivate (by rw [hp]; exact hreach) with ⟨j, hj⟩
      cases hj
    · rfl
  refine ⟨hret, ?_⟩
  intro hdf w Pe Piq opts input hhal hrss hcfg hp ht hfp hwfi huc
  rw [mainRun_power_bin_eq w P Pe Piq S opts fuel input hhal hrss hcfg hp ht,
    hfp, hwfi, huc, hexec]
  simp [hret, hdf]

/-- C8 witness: a bounded 1-update run whose polls all succeed but
whose deactivation fails; the run returns `false` and `main` exits with
failure. -/
theorem C8_deactivate_result_witness :
    (⟨false, ["0\t\n"],
      [Ev.create, Ev.getMetadata, Ev.activate, Ev.getNext 0, Ev.deactivate, Ev.destroy]⟩
        : ExecResult).ret = false ∧
    mainRun ⟨true, true, true⟩ ⟨true, 1, true, (fun _ => true), (fun _ _ => 0), false⟩
        ⟨true, 1, true, (fun _ => true), (fun _ _ => 0), true⟩
        ⟨true, 1, true, (fun _ => true), (fun _ _ => ("0", "0")), true⟩
        ⟨true, fun _ => false⟩ [Opt.t 0, Opt.c 1] 2 =
      some (ExitCode.failure,
        [Ev.create, Ev.getMetadata, Ev.activate, Ev.getNext 0, Ev.deactivate,
          Ev.destroy]) := by
  have h := C8_deactivate_result_is_run_outcome
    ⟨true, 1, true, (fun _ => true), (fun _ _ => 0), false⟩ ⟨true, fun _ => false⟩
    none false 1 2
    ⟨false, ["0\t\n"],
      [Ev.create, Ev.getMetadata, Ev.activate, Ev.getNext 0, Ev.deactivate, Ev.destroy]⟩
    rfl (by simp)
  exact ⟨h.1,
    h.2 rfl ⟨true, true, true⟩ ⟨true, 1, true, (fun _ => true), (fun _ _ => 0), true⟩
      ⟨true, 1, true, (fun _ => true), (fun _ _ => ("0", "0")), true⟩ [Opt.t 0, Opt.c 1]
      { default_input with
        service_type := ServiceType.power_bin, update_count := 1,
        wait_for_interrupt := false }
      rfl rfl rfl rfl rfl rfl rfl rfl⟩

/-! ### Claim C4 -/

/-- C4: if the `K`-th `get_next` call (1-based) fails, exactly `K - 1`
frame lines have been written when the run terminates (first conjunct),
the function returns `false` (second), the loop is not re-entered — no
poll with index `≥ K` is ever issued (third) — and `main` exits with a
failure status (fourth).  The premise that the `K`-th call happened is
expressed by its event being in the run's event list. -/
theorem C4_kth_poll_failure
    (P : PBProvider) (S : Sys) (fp : Option String) (wfi : Bool) (uc fuel K : Nat)
    (r : ExecResult) (hK : 1 ≤ K)
    (hok : ∀ j, j < K - 1 → P.pollOk j = true) (hfail : P.pollOk (K - 1) = false)
    (hexec : execute_power_bin P S fp wfi uc fuel = some r)
    (hmem : Ev.getNext (K - 1) ∈ r.events) :
    r.lines.length = K - 1 ∧ r.ret = false ∧
    (∀ j, K ≤ j → Ev.getNext j ∉ r.events) ∧
    (∀ (w : World) (Pe : EnvProvider) (Piq : IQProvider) (opts : List Opt) (input : Input),
      w.hal_ok = true → w.rss_ok = true → w.config_create_ok = true →
      parse_options opts = ParseResult.ok input →
      input.service_type = ServiceType.power_bin →
      input.file_path = fp → input.wait_for_interrupt = wfi → input.update_count = uc →
      mainRun w P Pe Piq S opts fuel = some (ExitCode.failure, r.events)) := by
  have hok0 : ∀ j, j < K - 1 → P.pollOk (0 + j) = true := by
    intro j hj
    rw [Nat.zero_add]
    exact hok j hj
  have hfail0 : P.pollOk (0 + (K - 1)) = false := by rwa [Nat.zero_add]
  obtain ⟨h1, h2, h3⟩ : r.lines.length = K - 1 ∧ r.ret = false ∧
      (∀ j, K ≤ j → Ev.getNext j ∉ r.events) := by
    rcases execute_power_bin_cases P S fp wfi uc fuel r hexec with
      ⟨_, rfl⟩ | ⟨_, _, rfl⟩ | ⟨_, _, _, rfl⟩ | ⟨_, _, _, L, E, hp, rfl⟩ |
      ⟨_, _, _, L, E, hp, rfl⟩
    · simp at hmem
    · simp at hmem
    · simp at hmem
    · have hmem' : Ev.getNext (0 + (K - 1)) ∈
          (pollLoop P.pollOk (pbFields P) S.interruptedAt wfi uc fuel 0 0).events := by
        rw [hp, Nat.zero_add]
        simp at hmem
        exact hmem
      have hfl := pollLoop_fail_at P.pollOk (pbFields P) S.interruptedAt wfi uc
        fuel (K - 1) 0 0 hok0 hfail0 hmem'
      rw [hp] at hfl
      obtain ⟨hL, hE, -⟩ : L = (idxList 0 (K - 1)).map (lineOf (pbFields P)) ∧
          E = (idxList 0 (K - 1)).map Ev.getNext ++ [Ev.getNext (0 + (K - 1))] ∧
          LoopExit.pollFail = LoopExit.pollFail := by
        injection hfl with a b c
        exact ⟨a, b, rfl⟩
      subst hL
      subst hE
      refine ⟨by simp [idxList_length], rfl, ?_⟩
      intro j hj hbad
      simp [idxList_mem] at hbad
      rcases hbad with hlt | heq
      · omega
      · omega
    · have hmem' : Ev.getNext (0 + (K - 1)) ∈
          (pollLoop P.pollOk (pbFields P) S.interruptedAt wfi uc fuel 0 0).events := by
        rw [hp, Nat.zero_add]
        simp at hmem
        exact hmem
      have hfl := pollLoop_fail_at P.pollOk (pbFields P) S.interruptedAt wfi uc
        fuel (K - 1) 0 0 hok0 hfail0 hmem'
      rw [hp] at hfl
      exact absurd (congrArg LoopOut.outcome hfl) (by simp)
  refine ⟨h1, h2, h3, ?_⟩
  intro w Pe Piq opts input hhal hrss hcfg hp ht hfp hwfi huc
  rw [mainRun_power_bin_eq w P Pe Piq S opts fuel input hhal hrss hcfg hp ht,
    hfp, hwfi, huc, hexec]
  simp [h2]

/-- C4 witness: `K = 1` — the first poll fails, zero lines are written,
no later poll happens, and `main` exits with failure. -/
theorem C4_kth_poll_failure_witness :
    (([] : List String).length = 0 ∧
      (⟨false, [], [Ev.create, Ev.getMetadata, Ev.activate, Ev.getNext 0]⟩
        : ExecResult).ret = false ∧
      (∀ j, 1 ≤ j → Ev.getNext j ∉
        [Ev.create, Ev.getMetadata, Ev.activate, Ev.getNext 0]) ∧
      (∀ (w : World) (Pe : EnvProvider) (Piq : IQProvider) (opts : List Opt) (input : Input),
        w.hal_ok = true → w.rss_ok = true → w.config_create_ok = true →
        parse_options opts = ParseResult.ok input →
        input.service_type = ServiceType.power_bin →
        input.file_path = none → input.wait_for_interrupt = false →
        input.update_count = 5 →
        mainRun w ⟨true, 1, true, (fun _ => false), (fun _ _ => 0), true⟩ Pe Piq
            ⟨true, fun _ => false⟩ opts 6 =
          some (ExitCode.failure,
            [Ev.create, Ev.getMetadata, Ev.activate, Ev.getNext 0]))) := by
  have h := C4_kth_poll_failure
    ⟨true, 1, true, (fun _ => false), (fun _ _ => 0), true⟩ ⟨true, fun _ => false⟩
    none false 5 6 1
    ⟨false, [], [Ev.create, Ev.getMetadata, Ev.activate, Ev.getNext 0]⟩
    (by decide) (by intro j hj; omega) rfl rfl (by simp)
  exact h

/-! ### Claim C7 -/

/-- C7: in an unbounded run the flag set by the SIGINT handler is read
only at loop-condition checks.  With iteration `k`'s check at event
index `2*k` and its poll completing at `2*k + 1`, and the signal
arriving just before event index `p` (the `flagAt p` history), the loop
runs exactly `(p + 1) / 2` polls and then exits normally (first
conjunct): the poll in flight when the signal arrives completes and its
line is written.  At most one line is written at-or-after the signal
(second conjunct), and no poll with index `≥ (p + 1) / 2` is ever
issued — the loop exits before the next poll (third conjunct). -/
theorem C7_cancellation_observed_at_boundaries
    (p fuel : Nat) (P : PBProvider) (fo : Bool)
    (hc : P.createOk = true) (ha : P.activateOk = true) (hok : ∀ j, P.pollOk j = true)
    (hfuel : (p + 1) / 2 < fuel) :
    (execute_power_bin P ⟨fo, flagAt p⟩ none true 0 fuel =
      some ⟨P.deactivateOk, (idxList 0 ((p + 1) / 2)).map (lineOf (pbFields P)),
        [Ev.create, Ev.getMetadata, Ev.activate] ++
          (idxList 0 ((p + 1) / 2)).map Ev.getNext ++ [Ev.deactivate, Ev.destroy]⟩) ∧
    writesAfterSignal p ((p + 1) / 2) ≤ 1 ∧
    (∀ k, (p + 1) / 2 ≤ k →
      Ev.getNext k ∉
        ([Ev.create, Ev.getMetadata, Ev.activate] ++
          (idxList 0 ((p + 1) / 2)).map Ev.getNext ++ [Ev.deactivate, Ev.destroy])) := by
  have h1 : ∀ j, j < (p + 1) / 2 → flagAt p (0 + j) = false := by
    intro j hj
    simp only [flagAt, Nat.zero_add, decide_eq_false_iff_not]
    omega
  have h2 : flagAt p (0 + (p + 1) / 2) = true := by
    simp only [flagAt, Nat.zero_add, decide_eq_true_eq]
    omega
  have hloop := pollLoop_unbounded_stop P.pollOk (pbFields P) (flagAt p) hok
    ((p + 1) / 2) fuel 0 0 hfuel h1 h2
  refine ⟨?_, ?_, ?_⟩
  · rw [execute_power_bin_eq P ⟨fo, flagAt p⟩ none true 0 fuel hc ha (by simp)]
    rw [show (Sys.mk fo (flagAt p)).interruptedAt = flagAt p from rfl, hloop]
  · unfold writesAfterSignal
    rcases Nat.even_or_odd p with ⟨m, hm⟩ | ⟨m, hm⟩
    · have hk0 : (p + 1) / 2 = m := by omega
      rw [hk0, List.filter_eq_nil_iff.mpr ?_]
      · simp
      · intro a ha2
        simp only [List.mem_range] at ha2
        simp only [decide_eq_true_eq]
        omega
    · have hk0 : (p + 1) / 2 = m + 1 := by omega
      rw [hk0, List.range_succ, List.filter_append, List.filter_eq_nil_iff.mpr ?_]
      · simp only [List.nil_append, List.length_filter_le, List.filter_cons]
        have : decide (p ≤ 2 * m + 1) = true := by
          simp only [decide_eq_true_eq]
          omega
        simp [this]
      · intro a ha2
        simp only [List.mem_range] at ha2
        simp only [decide_eq_true_eq]
        omega
  · intro k hk hbad
    simp [idxList_mem] at hbad
    omega

/-- C7 witness: the signal arrives at event index 3, i.e. while poll 1
is in flight (checks at 0 and 2, polls completing at 1 and 3): the loop
runs two polls — the in-flight poll completes and its line is written —
then exits; exactly one of the two lines lands at-or-after the signal. -/
theorem C7_cancellation_witness :
    (execute_power_bin ⟨true, 1, true, (fun _ => true), (fun _ _ => 4), true⟩
        ⟨true, flagAt 3⟩ none true 0 3 =
      some ⟨true, (idxList 0 ((3 + 1) / 2)).map
          (lineOf (pbFields ⟨true, 1, true, (fun _ => true), (fun _ _ => 4), true⟩)),
        [Ev.create, Ev.getMetadata, Ev.activate] ++
          (idxList 0 ((3 + 1) / 2)).map Ev.getNext ++ [Ev.deactivate, Ev.destroy]⟩) ∧
    writesAfterSignal 3 ((3 + 1) / 2) ≤ 1 ∧
    (∀ k, (3 + 1) / 2 ≤ k →
      Ev.getNext k ∉
        ([Ev.create, Ev.getMetadata, Ev.activate] ++
          (idxList 0 ((3 + 1) / 2)).map Ev.getNext ++ [Ev.deactivate, Ev.destroy])) :=
  C7_cancellation_observed_at_boundaries 3 3
    ⟨true, 1, true, (fun _ => true), (fun _ _ => 4), true⟩ true rfl rfl
    (fun _ => rfl) (by decide)

end DataLogger
